import Mathlib

/-!
Verification development for the FlexVersion library
(`flex_version/flex_version.py`).

The Python module is shallowly embedded below.  Optional integer
attributes become `Option Int`, optional strings become
`Option String`, and operations that can raise (`ValueError`,
`AssertionError`, `list.index` failures) return `Except String _`.
The field holding the version prefix string is called `pfx` here; all
other names follow the source.  Error message strings are abbreviated.
-/

namespace FlexVer

/-- Embeds the `none_as` substitution shared by the numeric helpers of
the source (`v1 = none_as if v1 is None else v1`). -/
def vdefault (noneAs v : Option Int) : Option Int :=
  match v with
  | none => noneAs
  | some x => some x

/-- Embeds `_verdiff`: after `none_as` substitution, the difference, or
`None` when either side is still `None`. -/
def verdiff (v1 v2 noneAs : Option Int) : Option Int :=
  match vdefault noneAs v1, vdefault noneAs v2 with
  | some a, some b => some (a - b)
  | _, _ => none

/-- Embeds `_vermul` exactly as written in the source: the body computes
`v1 + integer` (an addition) even though the helper backs `__mul__`. -/
def vermul (v1 : Option Int) (k : Int) (noneAs : Option Int) : Option Int :=
  match vdefault noneAs v1 with
  | none => none
  | some a => some (a + k)

/-- Embeds the `VersionDelta` value: five optional signed fields. -/
structure VersionDelta where
  major : Option Int
  minor : Option Int
  maintenance : Option Int
  build : Option Int
  sver : Option Int
deriving DecidableEq

/-- Embeds `VersionDelta._getstate(none_as)`: the 5-tuple of fields with
`None` substituted by `none_as`. -/
def VersionDelta.getstate (d : VersionDelta) (noneAs : Option Int) : List (Option Int) :=
  [vdefault noneAs d.major, vdefault noneAs d.minor, vdefault noneAs d.maintenance,
   vdefault noneAs d.build, vdefault noneAs d.sver]

/-- Lexicographic three-way comparison of equal-length integer lists;
this is the behaviour of Python's `_cmp` on the state tuples
(`0 if x == y else 1 if x > y else -1` with tuple ordering). -/
def cmpList : List Int → List Int → Int
  | [], [] => 0
  | [], _ :: _ => -1
  | _ :: _, [] => 1
  | a :: as, b :: bs => if a < b then -1 else if b < a then 1 else cmpList as bs

/-- The state tuple with `none_as=0`, as used by `VersionDelta._cmp`. -/
def stateZ (d : VersionDelta) : List Int :=
  (d.getstate (some 0)).map (fun o => o.getD 0)

/-- Embeds `VersionDelta._cmp`: compare the two `_getstate(none_as=0)`
tuples. -/
def delta_cmp (d1 d2 : VersionDelta) : Int :=
  cmpList (stateZ d1) (stateZ d2)

/-- Embeds `VersionDelta.__eq__` (restricted to delta operands). -/
def deltaEq (d1 d2 : VersionDelta) : Bool :=
  delta_cmp d1 d2 == 0

/-- Embeds the `VersionDelta.zero` sentinel (all fields 0). -/
def VersionDelta.zero : VersionDelta :=
  ⟨some 0, some 0, some 0, some 0, some 0⟩

/-- Embeds `VersionDelta.__mul__` with an integer operand: field-wise
`_vermul` with the default `none_as=None`. -/
def VersionDelta.mul (d : VersionDelta) (k : Int) : VersionDelta :=
  ⟨vermul d.major k none, vermul d.minor k none, vermul d.maintenance k none,
   vermul d.build k none, vermul d.sver k none⟩

/-- Python truthiness of `not x` for an optional integer attribute:
`not None` and `not 0` are `True`, `not n` is `False` for `n ≠ 0`. -/
def pyFalsy (v : Option Int) : Bool :=
  match v with
  | none => true
  | some x => x == 0

/-- Embeds `VersionDelta.__bool__` exactly as written in the source:
`not major or not minor or not maintenance or not build or not sver`. -/
def VersionDelta.toBool (d : VersionDelta) : Bool :=
  pyFalsy d.major || pyFalsy d.minor || pyFalsy d.maintenance ||
    pyFalsy d.build || pyFalsy d.sver

/-- Embeds the argument `__hash__` feeds to Python's `hash`: the state
tuple `_getstate()` with its default `none_as=None`, so absent fields
stay `None` there. -/
def hashInput (d : VersionDelta) : List (Option Int) :=
  d.getstate none

/-- Embeds the `VersionMeta` value after construction.  `pfx` is the
version prefix string (`None` when absent, possibly the empty string);
`major` is `Option Int` because the attribute is initialised to `None`
before parsing, although every successfully parsed value sets it. -/
structure VersionMeta where
  pfx : Option String
  major : Option Int
  minor : Option Int
  maintenance : Option Int
  build : Option Int
  suffix : Option String
  suffix_version : Option Int
deriving DecidableEq

/-- Embeds `VersionMeta.shares_prefix` on two metas. -/
def VersionMeta.sharesPfx (v o : VersionMeta) : Bool :=
  v.pfx == o.pfx

/-- Embeds `VersionMeta.shares_suffix` on two metas. -/
def VersionMeta.sharesSuffix (v o : VersionMeta) : Bool :=
  v.suffix == o.suffix

/-- Embeds `VersionMeta.substitute`: requires equal prefixes and equal
suffixes unless the respective ignore flag is set, then produces the
field-wise `_verdiff` delta; with `ignore_suffix` the `sver` field is
`None`. -/
def VersionMeta.substitute (v o : VersionMeta) (ignorePfx ignoreSuffix : Bool) :
    Except String VersionDelta :=
  if !ignorePfx && !(v.pfx == o.pfx) then
    .error "VersionMeta substitution requires the same prefix"
  else if !ignoreSuffix && !(v.suffix == o.suffix) then
    .error "VersionMeta substitution requires the same suffix"
  else
    .ok ⟨verdiff v.major o.major none, verdiff v.minor o.minor none,
         verdiff v.maintenance o.maintenance none, verdiff v.build o.build none,
         if ignoreSuffix then none else verdiff v.suffix_version o.suffix_version none⟩

/-- Python's `<` on strings: lexicographic comparison by code point. -/
def strLt : List Char → List Char → Bool
  | [], [] => false
  | [], _ :: _ => true
  | _ :: _, [] => false
  | a :: as, b :: bs =>
    if a.toNat < b.toNat then true
    else if b.toNat < a.toNat then false
    else strLt as bs

/-- Python's `1 if s1 > s2 else -1 if s1 < s2 else 0` on strings. -/
def strCmp10 (s1 s2 : String) : Int :=
  if strLt s2.data s1.data then 1 else if strLt s1.data s2.data then -1 else 0

/-- Embeds `list.index` on the configured ordered suffix list (`None`
when the sought value is absent, which makes Python raise). -/
def listIndex : List (Option String) → Option String → Option Nat
  | [], _ => none
  | y :: ys, x => if y = x then some 0 else (listIndex ys x).map (fun i => i + 1)

/-- Embeds `l.__contains__` style membership used to state when the
ordered suffix lookup succeeds. -/
def listHas : List (Option String) → Option String → Bool
  | [], _ => false
  | y :: ys, x => if y = x then true else listHas ys x

/-- The process-wide `FlexVersion.ordered_suffix` configuration: `none`
models the attribute not being a list, `some l` a configured list whose
entries may include `None`. -/
abbrev SuffixCfg := Option (List (Option String))

/-- Embeds the suffix-version tie-break at the end of
`VersionMeta.compares`: the sign of `_verdiff(suffix_version, ...)`,
with `None` treated as equal. -/
def sverCmp (v o : VersionMeta) : Int :=
  match verdiff v.suffix_version o.suffix_version none with
  | none => 0
  | some s => if s = 0 then 0 else if s > 0 then 1 else -1

/-- Embeds `VersionMeta.compares`.  With differing prefixes the source
returns the lexicographic comparison of the prefixes (absent as the
empty string); otherwise it compares the numeric delta, then the
suffixes (by index difference when an ordered list is configured, where
a missing label raises), then the suffix versions. -/
def VersionMeta.compares (v o : VersionMeta) (ignoreSuffix : Bool) (cfg : SuffixCfg) :
    Except String Int :=
  if !(v.sharesPfx o) then
    .ok (strCmp10 (v.pfx.getD "") (o.pfx.getD ""))
  else
    match v.substitute o false true with
    | .error e => .error e
    | .ok delta =>
      if delta_cmp delta VersionDelta.zero > 0 then .ok 1
      else if delta_cmp delta VersionDelta.zero < 0 then .ok (-1)
      else if ignoreSuffix then .ok 0
      else
        match cfg with
        | some l =>
          match listIndex l v.suffix, listIndex l o.suffix with
          | some i1, some i2 =>
            let suffixRes : Int := (i1 : Int) - (i2 : Int)
            if suffixRes ≠ 0 then .ok suffixRes else .ok (sverCmp v o)
          | _, _ => .error "suffix not in ordered suffix list"
        | none =>
          let suffixRes := strCmp10 (v.suffix.getD "") (o.suffix.getD "")
          if suffixRes ≠ 0 then .ok suffixRes else .ok (sverCmp v o)

/-- Embeds `VersionMeta.in_range`: a prefix check that returns `False`
outright, then the range validation (`minv` must not exceed `maxv`),
then the two chained comparisons; Python's chained comparison evaluates
the second `compares` only when the first one is `<= 0`. -/
def VersionMeta.in_range (v minv maxv : VersionMeta) (ignoreSuffix : Bool) (cfg : SuffixCfg) :
    Except String Bool :=
  if !(v.sharesPfx minv && v.sharesPfx maxv) then
    .ok false
  else
    match minv.compares maxv ignoreSuffix cfg with
    | .error e => .error e
    | .ok c =>
      if c > 0 then .error "The minv should be a lower or equal version against maxv"
      else
        match v.compares maxv ignoreSuffix cfg with
        | .error e => .error e
        | .ok a =>
          if a ≤ 0 then
            match v.compares minv ignoreSuffix cfg with
            | .error e => .error e
            | .ok b => .ok (decide (0 ≤ b))
          else .ok false

/-- Embeds the local `_verplus` helper of `VersionMeta.add`, including
its `assert res is None or res >= 0`, modelled as an error result. -/
def verplus (v d : Option Int) : Except String (Option Int) :=
  let res : Option Int :=
    match v with
    | none => d
    | some x =>
      match d with
      | some y => some (x + y)
      | none => some x
  match res with
  | none => .ok none
  | some r => if 0 ≤ r then .ok (some r) else .error "assert res is None or res >= 0"

/-- Embeds `VersionMeta.add`: field-wise `_verplus` in source order
(the first failing assertion propagates), then the suffix bookkeeping
(a suffix label is required once a suffix version is present, and an
explicit `suffix` argument overwrites the label). -/
def VersionMeta.add (v : VersionMeta) (d : VersionDelta) (sfx : Option String) :
    Except String VersionMeta :=
  match verplus v.major d.major, verplus v.minor d.minor,
        verplus v.maintenance d.maintenance, verplus v.build d.build,
        verplus v.suffix_version d.sver with
  | .ok major, .ok minor, .ok maintenance, .ok build, .ok sv =>
    if sv.isSome then
      if sfx.isNone && v.suffix.isNone then
        .error "Suffix is required when performing version addition"
      else if sfx.isSome then
        .ok ⟨v.pfx, major, minor, maintenance, build, sfx, sv⟩
      else
        .ok ⟨v.pfx, major, minor, maintenance, build, v.suffix, sv⟩
    else
      .ok ⟨v.pfx, major, minor, maintenance, build, v.suffix, sv⟩
  | .error e, _, _, _, _ => .error e
  | _, .error e, _, _, _ => .error e
  | _, _, .error e, _, _ => .error e
  | _, _, _, .error e, _ => .error e
  | _, _, _, _, .error e => .error e

/-- The character set of `_trim_field` (`' \r\n-.'`). -/
def trimSet : List Char := [' ', '\r', '\n', '-', '.']

/-- Embeds `_trim_field`: strip the characters of `trimSet` from both
ends. -/
def trimField (s : List Char) : List Char :=
  ((s.dropWhile (fun c => c ∈ trimSet)).reverse.dropWhile (fun c => c ∈ trimSet)).reverse

/-- Decimal digit run to integer, the behaviour of Python's `int` on the
captured digit groups. -/
def digToInt (l : List Char) : Int :=
  (l.foldl (fun acc c => acc * 10 + (c.toNat - 48)) 0 : Nat)

/-- The raw captured groups of `_v_regex`, before trimming. -/
structure VGroups where
  pfxG : Option (List Char)
  majorG : List Char
  minorG : List Char
  maintG : Option (List Char)
  buildG : Option (List Char)
  sfxRawG : Option (List Char)
deriving DecidableEq

/-- One optional-greedy `(\.\d+)?` group: capture a dot followed by at
least one digit, else capture nothing and leave the input unchanged. -/
def optDotNum : List Char → Option (List Char) × List Char
  | '.' :: r =>
    let d := r.takeWhile Char.isDigit
    if d.isEmpty then (none, '.' :: r)
    else (some ('.' :: d), r.dropWhile Char.isDigit)
  | cs => (none, cs)

/-- Matching of `_v_regex` from the major component on:
`(?P<major>\d+)(?P<minor>\.\d+)(?P<maintenance>\.\d+)?(?P<build>\.\d+)?(?P<suffix_raw>\-.*)?`.
The minor group carries no `?` in the source, so it is mandatory; the
pattern is unanchored at the end, and `.` does not match a newline. -/
def matchFromMajor (cs : List Char) : Option VGroups :=
  let majd := cs.takeWhile Char.isDigit
  if majd.isEmpty then none
  else
    match cs.dropWhile Char.isDigit with
    | '.' :: r2 =>
      let mind := r2.takeWhile Char.isDigit
      if mind.isEmpty then none
      else
        let r3 := r2.dropWhile Char.isDigit
        let (mg, r4) := optDotNum r3
        let (bg, r5) := optDotNum r4
        let sg : Option (List Char) :=
          match r5 with
          | '-' :: r6 => some ('-' :: r6.takeWhile (fun c => c ≠ '\n'))
          | _ => none
        some ⟨none, majd, '.' :: mind, mg, bg, sg⟩
    | _ => none

/-- Backtracking over the greedy optional group `(?P<prefix>.*\-)?`: try
every position of `'-'` reachable by `.*` (no newline crossed) from the
rightmost leftwards, then the alternative without the group. -/
def tryPfxCands (cs : List Char) : List Nat → Option VGroups
  | [] =>
    match matchFromMajor cs with
    | some g => some ⟨none, g.majorG, g.minorG, g.maintG, g.buildG, g.sfxRawG⟩
    | none => none
  | j :: js =>
    match matchFromMajor (cs.drop (j + 1)) with
    | some g => some ⟨some (cs.take (j + 1)), g.majorG, g.minorG, g.maintG, g.buildG, g.sfxRawG⟩
    | none => tryPfxCands cs js

/-- Embeds `re.match(_v_regex, ...)` for the whole version pattern. -/
def vMatch (cs : List Char) : Option VGroups :=
  let region := cs.takeWhile (fun c => c ≠ '\n')
  let dashes := ((List.range region.length).filter (fun j => region.getD j ' ' = '-')).reverse
  tryPfxCands cs dashes

/-- Embeds the second pass `_suffix_regex =
(?P<suffix>[^\d]*)(?P<version>\d+)?` on the trimmed suffix text: the
leading non-digit run and the digit run right after it (absent when
empty). -/
def suffixSplit (sr : List Char) : List Char × Option (List Char) :=
  let sg := sr.takeWhile (fun c => !c.isDigit)
  let vg := (sr.dropWhile (fun c => !c.isDigit)).takeWhile Char.isDigit
  (sg, if vg.isEmpty then none else some vg)

/-- List of characters to `String`. -/
def strOf (l : List Char) : String := ⟨l⟩

/-- Embeds `VersionMeta.__init__` on a version string: regex match,
trimming, integer conversion, and the suffix second pass guarded by the
truthiness of the trimmed suffix text.  A failed match raises
`ValueError` in the source. -/
def parseVM (s : String) : Except String VersionMeta :=
  match vMatch s.data with
  | none => .error ("Could not parse the given version: " ++ s)
  | some g =>
    let pfxF : Option String := g.pfxG.map (fun l => strOf (trimField l))
    let majorF : Option Int := some (digToInt (trimField g.majorG))
    let minorF : Option Int := some (digToInt (trimField g.minorG))
    let maintF : Option Int := g.maintG.map (fun l => digToInt (trimField l))
    let buildF : Option Int := g.buildG.map (fun l => digToInt (trimField l))
    match g.sfxRawG.map trimField with
    | some sr =>
      if sr.isEmpty then
        .ok ⟨pfxF, majorF, minorF, maintF, buildF, none, none⟩
      else
        let (sg, vg) := suffixSplit sr
        .ok ⟨pfxF, majorF, minorF, maintF, buildF,
             some (strOf (trimField sg)), vg.map digToInt⟩
    | none => .ok ⟨pfxF, majorF, minorF, maintF, buildF, none, none⟩

/-- Decidable equality for `Except` results, so concrete runs of the
embedded operations can be checked by `decide`. -/
instance instDecEqExcept {ε α : Type} [DecidableEq ε] [DecidableEq α] :
    DecidableEq (Except ε α) := fun x y =>
  match x, y with
  | .error a, .error b =>
    if h : a = b then isTrue (by rw [h])
    else isFalse (by intro hc; cases hc; exact h rfl)
  | .error _, .ok _ => isFalse (by intro hc; cases hc)
  | .ok _, .error _ => isFalse (by intro hc; cases hc)
  | .ok a, .ok b =>
    if h : a = b then isTrue (by rw [h])
    else isFalse (by intro hc; cases hc; exact h rfl)

/-! Concrete values used by the theorems below. -/

/-- Sample meta with prefix `a`, version `1.0`. -/
def vA : VersionMeta := ⟨some "a", some 1, some 0, none, none, none, none⟩

/-- Sample meta with prefix `b`, version `1.0`. -/
def vB : VersionMeta := ⟨some "b", some 1, some 0, none, none, none, none⟩

/-- Sample meta with prefix `b`, version `5.0`. -/
def vB5 : VersionMeta := ⟨some "b", some 5, some 0, none, none, none, none⟩

/-- Sample meta with prefix `b`, version `3.0`. -/
def vB3 : VersionMeta := ⟨some "b", some 3, some 0, none, none, none, none⟩

/-- Sample meta `prev-1.0.0-final`. -/
def vFinal : VersionMeta := ⟨some "prev", some 1, some 0, some 0, none, some "final", none⟩

/-- Sample meta `prev-1.0.0-alpha`. -/
def vAlpha : VersionMeta := ⟨some "prev", some 1, some 0, some 0, none, some "alpha", none⟩

/-- Sample meta `prev-1.0.0-rc5`. -/
def vRc : VersionMeta := ⟨some "prev", some 1, some 0, some 0, none, some "rc", some 5⟩

/-- The ordered suffix configuration used in the source's tests. -/
def cfgOrd : SuffixCfg := some [none, some "alpha", some "beta", some "rc", some "final"]

/-! Sanity checks tying the parser model to the assertions shipped at the
bottom of the source module. -/

/-- Sanity: `prev-1.0.0-rc1` parses to the record documented in the
source's own assertions. -/
theorem parse_sanity_rc1 :
    parseVM "prev-1.0.0-rc1" =
      Except.ok ⟨some "prev", some 1, some 0, some 0, none, some "rc", some 1⟩ := by
  decide

/-- Sanity: `1.0` parses with maintenance, build and suffix absent. -/
theorem parse_sanity_10 :
    parseVM "1.0" = Except.ok ⟨none, some 1, some 0, none, none, none, none⟩ := by
  decide

/-- Sanity: `prev-1.0.0-final` parses with a suffix label and no suffix
version. -/
theorem parse_sanity_final :
    parseVM "prev-1.0.0-final" =
      Except.ok ⟨some "prev", some 1, some 0, some 0, none, some "final", none⟩ := by
  decide

/-! Helper lemmas shared by the claim theorems. -/

/-- Substituting zero for absence commutes with `getD 0`. -/
theorem vdefault0_getD (x : Option Int) : (vdefault (some 0) x).getD 0 = x.getD 0 := by
  cases x <;> rfl

/-- The `none_as=0` state tuple, field by field. -/
theorem stateZ_eq (d : VersionDelta) :
    stateZ d = [d.major.getD 0, d.minor.getD 0, d.maintenance.getD 0,
                d.build.getD 0, d.sver.getD 0] := by
  simp [stateZ, VersionDelta.getstate, vdefault0_getD]

/-- The difference of a field with itself reads as zero. -/
theorem verdiff_self (x : Option Int) : (verdiff x x none).getD 0 = 0 := by
  cases x <;> simp [verdiff, vdefault]

/-- Python string comparison is irreflexive. -/
theorem strLt_self (l : List Char) : strLt l l = false := by
  induction l with
  | nil => rfl
  | cons a as ih => simp [strLt, ih]

/-- Comparing a string with itself yields zero. -/
theorem strCmp10_self (s : String) : strCmp10 s s = 0 := by
  simp [strCmp10, strLt_self]

/-- A successful membership test produces an index. -/
theorem listIndex_of_has (l : List (Option String)) (x : Option String)
    (h : listHas l x = true) : ∃ i, listIndex l x = some i := by
  induction l with
  | nil => simp [listHas] at h
  | cons y ys ih =>
    by_cases hy : y = x
    · exact ⟨0, by simp [listIndex, hy]⟩
    · simp only [listHas, if_neg hy] at h
      obtain ⟨i, hi⟩ := ih h
      exact ⟨i + 1, by simp [listIndex, hy, hi]⟩

/-- The suffix-version tie-break of a version against itself is zero. -/
theorem sverCmp_self (v : VersionMeta) : sverCmp v v = 0 := by
  cases h : v.suffix_version <;> simp [sverCmp, verdiff, vdefault, h]

/-- Substitution of a version from itself never fails and yields the
field-wise self-differences. -/
theorem substitute_self (v : VersionMeta) (ig : Bool) :
    v.substitute v false ig =
      Except.ok ⟨verdiff v.major v.major none, verdiff v.minor v.minor none,
                 verdiff v.maintenance v.maintenance none, verdiff v.build v.build none,
                 if ig then none else verdiff v.suffix_version v.suffix_version none⟩ := by
  simp [VersionMeta.substitute]

/-- The self-difference delta compares equal to zero under the
absent-as-zero ordering, for any fifth field that reads as zero. -/
theorem delta_self_cmp (v : VersionMeta) (s5 : Option Int) (h5 : s5.getD 0 = 0) :
    delta_cmp ⟨verdiff v.major v.major none, verdiff v.minor v.minor none,
               verdiff v.maintenance v.maintenance none, verdiff v.build v.build none, s5⟩
      VersionDelta.zero = 0 := by
  unfold delta_cmp
  rw [stateZ_eq]
  dsimp only
  rw [verdiff_self, verdiff_self, verdiff_self, verdiff_self, h5]
  decide

/-- Whether the ordered-suffix lookup of `v.suffix` is defined for a
configuration: always, except when a configured list omits the label. -/
def suffixResolvable (v : VersionMeta) (cfg : SuffixCfg) : Bool :=
  match cfg with
  | none => true
  | some l => listHas l v.suffix

/-- Comparing a version with itself returns 0 whenever the suffix lookup
is defined for the configuration. -/
theorem compares_self (v : VersionMeta) (ig : Bool) (cfg : SuffixCfg)
    (h : suffixResolvable v cfg = true) :
    v.compares v ig cfg = Except.ok 0 := by
  have hd := delta_self_cmp v none rfl
  unfold VersionMeta.compares
  rw [substitute_self]
  simp only [VersionMeta.sharesPfx, beq_self_eq_true, Bool.not_true, Bool.false_eq_true,
    if_false]
  cases ig with
  | true => simp [hd]
  | false =>
    cases cfg with
    | none => simp [hd, strCmp10_self, sverCmp_self]
    | some l =>
      obtain ⟨i, hi⟩ := listIndex_of_has l v.suffix (by simpa [suffixResolvable] using h)
      simp [hd, hi, sverCmp_self]

/-! Claim theorems. -/

/-- C1 (counterexample): for `vA` (prefix `a`) and `vB` (prefix `b`),
whose prefixes differ, `compares` returns the ordering result `-1`
instead of failing with a prefix-mismatch error, refuting the claim that
it fails whenever prefixes differ. -/
theorem C1_counterexample :
    vA.pfx ≠ vB.pfx ∧ vA.compares vB false none = Except.ok (-1) := by
  refine ⟨by decide, by decide⟩

/-- C1 (amended): whenever the prefixes of the two versions differ,
`compares` returns, without error, the sign of the lexicographic
comparison of the prefix strings, with an absent prefix treated as the
empty string. -/
theorem C1_amended (v o : VersionMeta) (ig : Bool) (cfg : SuffixCfg)
    (h : v.pfx ≠ o.pfx) :
    v.compares o ig cfg = Except.ok (strCmp10 (v.pfx.getD "") (o.pfx.getD "")) := by
  unfold VersionMeta.compares VersionMeta.sharesPfx
  simp [h]

/-- C1 witness: the amended statement applied to the concrete pair
`vA`, `vB`, whose prefixes differ. -/
theorem C1_witness :
    vA.pfx ≠ vB.pfx ∧
    vA.compares vB true none = Except.ok (strCmp10 (vA.pfx.getD "") (vB.pfx.getD "")) :=
  ⟨by decide, C1_amended vA vB true none (by decide)⟩

/-- C2: scalar multiplication is not the field-wise product; the body of
`_vermul` adds the integer instead, so `VersionDelta(major=2) * 3` has
major `5`, not `6` (absent fields do stay absent). -/
theorem C2_eval :
    (VersionDelta.mul ⟨some 2, none, none, none, none⟩ 3).major = some 5 ∧
    (VersionDelta.mul ⟨some 2, none, none, none, none⟩ 3).major ≠ some (2 * 3) ∧
    (VersionDelta.mul ⟨some 2, none, none, none, none⟩ 3).minor = none := by
  refine ⟨by decide, by decide, by decide⟩

/-- C3: the truth value of the all-zero delta is `true` and the truth
value of an all-ones delta is `false`, the opposite of the claimed
behaviour — `__bool__` is inverted in the source. -/
theorem C3_eval :
    VersionDelta.toBool VersionDelta.zero = true ∧
    VersionDelta.toBool ⟨some 1, some 1, some 1, some 1, some 1⟩ = false := by
  refine ⟨by decide, by decide⟩

/-- C4: with the ordered suffix list of the source's tests configured
and both suffixes present in it, `compares` returns the raw index
difference `3`, a normal return outside `{-1, 0, 1}`. -/
theorem C4_eval :
    vFinal.compares vAlpha false cfgOrd = Except.ok 3 := by
  decide

/-- C5: parsing `com-1` — a form the class docstring lists as supported
— fails, because the minor group of the version regex carries no `?`
and is therefore mandatory, while `com-1.0` parses fine; so parse
failure is not limited to a missing major component. -/
theorem C5_eval :
    parseVM "com-1" = Except.error "Could not parse the given version: com-1" ∧
    parseVM "com-1.0" = Except.ok ⟨some "com", some 1, some 0, none, none, none, none⟩ ∧
    parseVM "1" = Except.error "Could not parse the given version: 1" := by
  refine ⟨by decide, by decide, by decide⟩

/-- C7: the deltas `VersionDelta(major=0)` and `VersionDelta()` compare
equal (absent fields count as zero there), yet `__hash__` feeds `hash`
the raw `_getstate()` tuples, which differ — so equal deltas are hashed
from different inputs, breaking hash/equality consistency. -/
theorem C7_eval :
    deltaEq ⟨some 0, none, none, none, none⟩ ⟨none, none, none, none, none⟩ = true ∧
    hashInput ⟨some 0, none, none, none, none⟩ ≠ hashInput ⟨none, none, none, none, none⟩ := by
  refine ⟨by decide, by decide⟩

/-- C8 (counterexample): with an ordered suffix list configured that
does not contain the version's suffix, `in_range(v, v, v)` fails with
the lookup error instead of returning `true`, refuting the claim for
arbitrary configurations. -/
theorem C8_counterexample :
    vRc.in_range vRc vRc false (some [some "alpha"]) =
      Except.error "suffix not in ordered suffix list" := by
  decide

/-- C6: subtracting any VersionMeta from itself succeeds and yields a
delta that compares equal to `VersionDelta.zero` under the delta
equality, which substitutes 0 for absent fields. -/
theorem C6_roundtrip (v : VersionMeta) :
    (v.substitute v false false).map (fun d => deltaEq d VersionDelta.zero) =
      Except.ok true := by
  rw [substitute_self]
  have hd := delta_self_cmp v (verdiff v.suffix_version v.suffix_version none)
    (verdiff_self v.suffix_version)
  simp [Except.map, deltaEq, hd]

/-- C8 (amended): `in_range(v, v, v)` returns `true` for every
configuration under which the suffix comparison is defined, i.e. when no
ordered suffix list is configured or the configured list contains `v`'s
suffix label. -/
theorem C8_amended (v : VersionMeta) (ig : Bool) (cfg : SuffixCfg)
    (h : suffixResolvable v cfg = true) :
    v.in_range v v ig cfg = Except.ok true := by
  have hc := compares_self v ig cfg h
  unfold VersionMeta.in_range
  simp [VersionMeta.sharesPfx, hc]

/-- C8 witness: the amended statement at the concrete version `vRc` with
an ordered list containing its suffix. -/
theorem C8_witness :
    suffixResolvable vRc (some [some "alpha", some "rc"]) = true ∧
    vRc.in_range vRc vRc false (some [some "alpha", some "rc"]) = Except.ok true :=
  ⟨by decide, C8_amended vRc false (some [some "alpha", some "rc"]) (by decide)⟩

/-- All values present in an optional field are non-negative. -/
def optNonneg (o : Option Int) : Prop := ∀ x, o = some x → 0 ≤ x

/-- Every present numeric field of a VersionMeta is non-negative. -/
def metaNonneg (w : VersionMeta) : Prop :=
  optNonneg w.major ∧ optNonneg w.minor ∧ optNonneg w.maintenance ∧
    optNonneg w.build ∧ optNonneg w.suffix_version

/-- A successful `_verplus` only returns absent or non-negative
values — the embedded assertion rules negative results out. -/
theorem verplus_ok_nonneg (a b o : Option Int) (h : verplus a b = Except.ok o) :
    optNonneg o := by
  intro x hx
  rw [hx] at h
  cases a <;> cases b <;> simp only [verplus] at h <;> (try split at h) <;>
    simp_all

/-- C9: whenever `add` returns normally, every present numeric field of
the result (major, minor, maintenance, build, suffix_version) is
non-negative; a negative field makes the call fail instead. -/
theorem C9_add_nonneg (v : VersionMeta) (d : VersionDelta) (s : Option String)
    (w : VersionMeta) (h : v.add d s = Except.ok w) : metaNonneg w := by
  unfold VersionMeta.add at h
  cases hA : verplus v.major d.major with
  | error e => rw [hA] at h; simp at h
  | ok fA =>
  cases hB : verplus v.minor d.minor with
  | error e => rw [hA, hB] at h; simp at h
  | ok fB =>
  cases hC : verplus v.maintenance d.maintenance with
  | error e => rw [hA, hB, hC] at h; simp at h
  | ok fC =>
  cases hD : verplus v.build d.build with
  | error e => rw [hA, hB, hC, hD] at h; simp at h
  | ok fD =>
  cases hE : verplus v.suffix_version d.sver with
  | error e => rw [hA, hB, hC, hD, hE] at h; simp at h
  | ok fE =>
  rw [hA, hB, hC, hD, hE] at h
  have HA := verplus_ok_nonneg _ _ _ hA
  have HB := verplus_ok_nonneg _ _ _ hB
  have HC := verplus_ok_nonneg _ _ _ hC
  have HD := verplus_ok_nonneg _ _ _ hD
  have HE := verplus_ok_nonneg _ _ _ hE
  dsimp only at h
  split at h
  · split at h
    · simp at h
    · split at h
      · cases h with
        | refl => exact ⟨HA, HB, HC, HD, HE⟩
      · cases h with
        | refl => exact ⟨HA, HB, HC, HD, HE⟩
  · cases h with
    | refl => exact ⟨HA, HB, HC, HD, HE⟩

/-- C9 witness: the theorem applied to a concrete successful addition
(`prev-1.0.0-rc0` plus a suffix-version delta of 1). -/
theorem C9_witness :
    VersionMeta.add ⟨some "prev", some 1, some 0, some 0, none, some "rc", some 0⟩
        ⟨none, none, none, none, some 1⟩ none =
      Except.ok ⟨some "prev", some 1, some 0, some 0, none, some "rc", some 1⟩ ∧
    metaNonneg ⟨some "prev", some 1, some 0, some 0, none, some "rc", some 1⟩ :=
  ⟨by decide,
   C9_add_nonneg ⟨some "prev", some 1, some 0, some 0, none, some "rc", some 0⟩
     ⟨none, none, none, none, some 1⟩ none
     ⟨some "prev", some 1, some 0, some 0, none, some "rc", some 1⟩ (by decide)⟩

/-- C10: whenever the version does not share its prefix with both range
endpoints, `in_range` returns `false` without raising — in particular
the invalid-range validation is never reached in that case. -/
theorem C10_pfx_first (v minv maxv : VersionMeta) (ig : Bool) (cfg : SuffixCfg)
    (h : (v.sharesPfx minv && v.sharesPfx maxv) = false) :
    v.in_range minv maxv ig cfg = Except.ok false := by
  unfold VersionMeta.in_range
  rw [h]
  simp

/-- C10 witness: the theorem applied at concrete versions whose range
endpoints are inverted (`minv` compares greater than `maxv`), showing
`in_range` still returns `false` rather than the invalid-range error. -/
theorem C10_witness :
    (vA.sharesPfx vB5 && vA.sharesPfx vB3) = false ∧
    vB5.compares vB3 false none = Except.ok 1 ∧
    vA.in_range vB5 vB3 false none = Except.ok false :=
  ⟨by decide, by decide, C10_pfx_first vA vB5 vB3 false none (by decide)⟩

end FlexVer
